import Mathlib

/-!
Shallow embedding of the Simfony middle-stage compiler (src/scope.rs and
src/compile.rs): the lexical scope tracker and the expression compiler that
lowers the surface AST into the target combinator IR ("ProgNode" terms).

Representation conventions:
* Rust `Vec` stacks (scope levels, bindings within a level) are represented as
  Lean lists with the MOST RECENT element at the HEAD.  Rust pushes at the end
  of the `Vec` and scans with `.iter().rev()`; the head-first list makes that
  scan a plain left-to-right traversal.
* Machine integers are `Nat` (no arithmetic in this code can overflow a usize
  in practice; lengths and positions are small).
* Fallible Rust code returning `Result` is modelled with an explicit outcome
  type; a Rust `panic!`/`unwrap` failure is the `panicked` outcome, which
  carries no state because the process aborts.
-/

/-- Source identifiers (crate::parse::Identifier). -/
abbrev Identifier := String

/-- Witness names (crate::parse::WitnessName). -/
abbrev WitnessName := String

/-- Source spans (crate::parse::Span); the compiler only threads them through,
so an abstract token suffices. -/
abbrev Span := Nat

/-- Modelled from the spec: `Pattern` is an irrefutable destructuring form,
either `Identifier(name)`, `Ignore` (wildcard) or a structural composite
(tuple/product pattern).  The `parse` module that declares it is not among the
provided sources; array patterns are normalized away into products by the
(also missing) `to_base`, so the base form used by the compiler is the one
modelled here. -/
inductive Pattern where
  | Identifier (name : Identifier)
  | Ignore
  | Product (l r : Pattern)
deriving DecidableEq, Repr

/-- Commitment Merkle roots used by assertion nodes (external `simplicity`
crate); only `Cmr::fail(entropy)` is used by this compiler. -/
inductive Cmr where
  | fail (entropy : Nat)
deriving DecidableEq, Repr

/-- Target combinator IR node (`ProgNode`).  The constructors are the external
target-representation constructors listed in the spec (identity, take, drop,
composition, pairing, injections, case, unit, constants, witness slots,
jets, assertions); the compiler builds terms from them and never inspects
them.  Their own type-unification failures are out of scope (the sources
document pair construction as never failing once lowered). -/
inductive ProgNode where
  | iden
  | unit
  | take (t : ProgNode)
  | drop_ (t : ProgNode)
  | comp (s t : ProgNode)
  | pair (s t : ProgNode)
  | injl (t : ProgNode)
  | injr (t : ProgNode)
  | bit_false
  | bit_true
  | case (l r : ProgNode)
  | assertl (l : ProgNode) (c : Cmr)
  | assertr (c : Cmr) (r : ProgNode)
  | witness (name : WitnessName)
  | jet (name : String)
  | const_word (v : Nat)
deriving DecidableEq, Repr

/-- ProgExt::pair_iden: pair a term with the identity (spec: the new
environment is the pair of the bound value and the old environment). -/
def ProgNode.pair_iden (t : ProgNode) : ProgNode := ProgNode.pair t ProgNode.iden

/-- ProgExt::pair_unit: pair a term with the unit value (spec: unwrap lowering
pairs the compiled sum-typed argument with the unit value). -/
def ProgNode.pair_unit (t : ProgNode) : ProgNode := ProgNode.pair t ProgNode.unit

/-- ProgExt::unit_comp: compose after the unit term (spec: constants are
embedded composed after discarding the unit input). -/
def ProgNode.unit_comp (t : ProgNode) : ProgNode := ProgNode.comp ProgNode.unit t

/-- Pattern::get_identifier (src/scope.rs): the bound identifier of a plain
identifier pattern, none otherwise. -/
def Pattern.get_identifier : Pattern → Option String
  | Pattern.Identifier i => some i
  | _ => none

/-- Pattern::get_program (src/scope.rs): the take/drop path to the first leaf
of the pattern binding `identifier`, over `iden`, or `none` when the pattern
does not bind it.  The traversal of the pattern tree is performed in the
sources by `DirectedTree::find` from the missing `array` module; modelled from
the spec: a structural search for the first matching leaf (leftmost first),
translating each left branch into a `take` and each right branch into a
`drop` wrapper, outermost step first. -/
def Pattern.get_program : Pattern → String → Option ProgNode
  | Pattern.Identifier j, i => if j = i then some ProgNode.iden else none
  | Pattern.Ignore, _ => none
  | Pattern.Product l r, i =>
    match l.get_program i with
    | some e => some (ProgNode.take e)
    | none => (r.get_program i).map ProgNode.drop_

/-- GlobalScope (src/scope.rs): the tracker of variable bindings and witness
names, a stack of scopes.  Each list has the most recently pushed level at
its head. -/
structure GlobalScope where
  vars : List (List Pattern)
  wits : List (List WitnessName)
deriving DecidableEq, Repr

/-- GlobalScope::new: one empty (outermost) level on each stack. -/
def GlobalScope.new : GlobalScope := ⟨[[]], [[]]⟩

/-- GlobalScope::push_scope: pushes a new empty level onto both stacks. -/
def GlobalScope.push_scope (s : GlobalScope) : GlobalScope :=
  ⟨[] :: s.vars, [] :: s.wits⟩

/-- GlobalScope::pop_scope: removes the topmost level from both stacks;
`none` models the panic ("Popping scope zero") raised when a stack is
empty. -/
def GlobalScope.pop_scope : GlobalScope → Option GlobalScope
  | ⟨_ :: vs, _ :: ws⟩ => some ⟨vs, ws⟩
  | _ => none

/-- GlobalScope::insert: pushes a new variable pattern onto the latest scope
level; `none` models the panic of `last_mut().unwrap()` on an empty stack. -/
def GlobalScope.insert (s : GlobalScope) (p : Pattern) : Option GlobalScope :=
  match s.vars with
  | [] => none
  | lvl :: rest => some ⟨(p :: lvl) :: rest, s.wits⟩

/-- GlobalScope::insert_witness: pushes a new witness name onto the latest
scope level; `none` models the panic of `last_mut().unwrap()` on an empty
stack. -/
def GlobalScope.insert_witness (s : GlobalScope) (w : WitnessName) : Option GlobalScope :=
  match s.wits with
  | [] => none
  | lvl :: rest => some ⟨s.vars, (w :: lvl) :: rest⟩

/-- Iterated `drop` wrapper: the `for _ in 0..pos` loop of GlobalScope::get. -/
def ProgNode.dropN : Nat → ProgNode → ProgNode
  | 0, e => e
  | n + 1, e => ProgNode.drop_ (ProgNode.dropN n e)

/-- The `scope.iter().rev().enumerate().find_map(...)` scan of
GlobalScope::get: the first (most recent first) pattern of the level that
binds `i`, with its relative position. -/
def lookupLevel : List Pattern → Identifier → Nat → Option (Nat × ProgNode)
  | [], _, _ => none
  | p :: ps, i, idx =>
    match p.get_program i with
    | some e => some (idx, e)
    | none => lookupLevel ps i (idx + 1)

/-- The level loop of GlobalScope::get, accumulating `pos` across levels that
do not bind the identifier. -/
def getGo : List (List Pattern) → Identifier → Nat → Option ProgNode
  | [], _, _ => none
  | lvl :: rest, i, pos =>
    match lookupLevel lvl i 0 with
    | some (ppos, e) => some (ProgNode.dropN (pos + ppos) (ProgNode.take e))
    | none => getGo rest i (pos + lvl.length)

/-- GlobalScope::get (src/scope.rs): the take/drop access term extracting the
value of `identifier` from the environment.  `none` models the
"identifier is undefined" outcome (a panic in scope.rs, mapped to the
`UndefinedVariable` error by compile.rs). -/
def GlobalScope.get (s : GlobalScope) (i : Identifier) : Option ProgNode :=
  getGo s.vars i 0

-- Sanity examples for the scope tracker (the doc example of scope.rs:
-- scopes `[a] [b c]`, extracting `a` needs `drop drop take iden`).
example :
    GlobalScope.get ⟨[[Pattern.Identifier "c", Pattern.Identifier "b"],
      [Pattern.Identifier "a"]], [[], []]⟩ "a"
      = some (ProgNode.drop_ (ProgNode.drop_ (ProgNode.take ProgNode.iden))) := by
  decide

example :
    GlobalScope.get ⟨[[Pattern.Identifier "b", Pattern.Identifier "a"], []], [[], []]⟩ "a"
      = some (ProgNode.drop_ (ProgNode.take ProgNode.iden)) := by
  decide

/-- Modelled from the spec: unsigned-integer width variants of the surface
type system (the `parse` module declaring `UIntType` is not among the
provided sources). -/
inductive UIntTy where
  | U1 | U2 | U4 | U8 | U16 | U32 | U64 | U128 | U256
deriving DecidableEq, Repr

/-- Bit width of an unsigned-integer type. -/
def UIntTy.bit_width : UIntTy → Nat
  | UIntTy.U1 => 1
  | UIntTy.U2 => 2
  | UIntTy.U4 => 4
  | UIntTy.U8 => 8
  | UIntTy.U16 => 16
  | UIntTy.U32 => 32
  | UIntTy.U64 => 64
  | UIntTy.U128 => 128
  | UIntTy.U256 => 256

/-- Modelled from the spec: surface types (`parse::Type`), "including
unsigned-integer width variants, array/list-with-bound variants"; the list
bound is a nonzero power of two in the sources
(`NonZeroPow2Usize`), here a plain `Nat` with that invariant stated where
needed. -/
inductive Ty where
  | Unit
  | Either (l r : Ty)
  | Prod (l r : Ty)
  | Option (t : Ty)
  | Boolean
  | UInt (u : UIntTy)
  | Array (t : Ty) (size : Nat)
  | List (t : Ty) (bound : Nat)
deriving DecidableEq, Repr

/-- Modelled from the spec: `Type::to_uint`, the numeric width of a required
type (none when the hint is not a numeric type). -/
def tyToUInt : Ty → Option UIntTy
  | Ty.UInt u => some u
  | _ => none

/-- Modelled from the spec: parse a decimal literal into the width's value
representation; `none` when the literal does not parse or does not fit the
width. -/
def UIntTy.parse_decimal (ty : UIntTy) (decimal : String) : Option Nat :=
  match decimal.toNat? with
  | some n => if n < 2 ^ ty.bit_width then some n else none
  | none => none

/-- Compile-time error kinds (crate::error::Error), restricted to the kinds
this compiler can raise. -/
inductive Error where
  | JetDoesNotExist (name : String)
  | TypeValueMismatch (ty : Ty)
  | UndefinedVariable (name : Identifier)
  | ParseIntegerError (decimal : String)
deriving DecidableEq, Repr

/-- Span-tagged error (crate::error::RichError, i.e. an error kind together
with the span attached by `with_span`). -/
abbrev RichError := Error × Span

/-- Fuel-driven loop for the next power of two: doubles the accumulator until
it reaches `n`. -/
def pow2geGo : Nat → Nat → Nat → Nat
  | _, 0, acc => acc
  | n, fuel + 1, acc => if n ≤ acc then acc else pow2geGo n fuel (2 * acc)

/-- Modelled from the spec: `NonZeroPow2Usize::next`, the smallest supported
power-of-two capacity (at least 2) that is at least `n` (the `num` module is
not among the provided sources). -/
def NonZeroPow2Usize.next (n : Nat) : Nat := pow2geGo n n 2

/-- One bottom-up round of the balanced pairing fold: combine adjacent
elements pairwise, keeping an odd last element. -/
def pairRound (f : ProgNode → ProgNode → ProgNode) : List ProgNode → List ProgNode
  | a :: b :: rest => f a b :: pairRound f rest
  | l => l

/-- Fuel-driven core of the balanced pairing fold. -/
def foldGo (f : ProgNode → ProgNode → ProgNode) : Nat → List ProgNode → ProgNode
  | _, [] => ProgNode.unit
  | _, [a] => a
  | 0, a :: _ :: _ => a
  | fuel + 1, a :: b :: rest => foldGo f fuel (f a b :: pairRound f rest)

/-- Modelled from the spec: `BTreeSlice::from_slice` followed by `fold` — the
balanced-binary-tree pairing fold, combining an ordered sequence of terms
pairwise bottom-up until one term remains (a one-element sequence is its
element, with no extra pairing; the `array` module is not among the provided
sources).  The fuel `l.length` always suffices since each round at least
halves a list of length two or more. -/
def foldPairwise (f : ProgNode → ProgNode → ProgNode) (l : List ProgNode) : ProgNode :=
  foldGo f l.length l

/-- Modelled from the spec: `Partition::from_slice` — partition an ordered
sequence into consecutive fixed-size blocks of `size` elements; the number of
blocks is `ceil(capacity/size)` where the capacity is twice the block size
(as at the unique call site, which passes half the list bound), so trailing
positions beyond the elements become empty blocks. -/
def Partition.from_slice (nodes : List ProgNode) (size : Nat) : List (List ProgNode) :=
  (List.range (max ((nodes.length + size - 1) / size) 2)).map
    (fun i => (nodes.drop (i * size)).take size)

/-- Modelled from the spec: `Partition::fold` — map each block through the
block-processing function and combine the processed blocks with the same
balanced pairing fold used for arrays, one level up. -/
def Partition.fold (blocks : List (List ProgNode)) (f : List ProgNode → ProgNode)
    (g : ProgNode → ProgNode → ProgNode) : ProgNode :=
  foldPairwise g (blocks.map f)

/-- The `process` closure of the list lowering (src/compile.rs): an empty
block is the absent tag (boolean false), a non-empty block is the present
tag wrapping the balanced fold of its elements. -/
def processBlock (block : List ProgNode) : ProgNode :=
  if block.isEmpty then ProgNode.bit_false
  else ProgNode.injr (foldPairwise ProgNode.pair block)

/-- Function kinds of a call (crate::parse::FuncType). -/
inductive FuncType where
  | Jet (name : String)
  | BuiltIn (name : String)
  | UnwrapLeft
  | UnwrapRight
  | Unwrap
deriving DecidableEq, Repr

mutual
/-- Surface expression (crate::parse::Expression): inner plus span. -/
inductive Expression where
  | mk (inner : ExpressionInner) (span : Span)

/-- Block or single expression (crate::parse::ExpressionInner). -/
inductive ExpressionInner where
  | BlockExpression (stmts : List Statement) (expr : Expression)
  | SingleExpression (inner : SingleExpressionInner)

/-- Statements (crate::parse::Statement). -/
inductive Statement where
  | Assignment (pattern : Pattern) (ty : Option Ty) (expression : Expression) (span : Span)
  | FuncCall (call : FuncCall)

/-- Function calls (crate::parse::FuncCall). -/
inductive FuncCall where
  | mk (func_type : FuncType) (args : List Expression) (span : Span)

/-- Match arms (crate::parse::MatchArm): pattern plus body. -/
inductive MatchArm where
  | mk (pattern : Pattern) (expression : Expression)

/-- Single expressions (crate::parse::SingleExpressionInner). -/
inductive SingleExpressionInner where
  | Unit
  | Left (e : Expression)
  | None
  | Right (e : Expression)
  | Some (e : Expression)
  | False
  | True
  | Product (l r : Expression)
  | UnsignedInteger (decimal : String)
  | BitString (v : Nat)
  | ByteString (v : Nat)
  | Witness (name : WitnessName)
  | Variable (identifier : Identifier)
  | FuncCall (call : FuncCall)
  | Expression (e : Expression)
  | Match (scrutinee : Expression) (left right : MatchArm)
  | Array (elements : List Expression)
  | List (elements : List Expression)
end

/-- Outcome of compiling one expression: a produced term plus the tracker
state (`Ok`), a span-tagged error plus the tracker state (`Err`), or a
process abort (Rust panic / unwrap failure), after which no state is
observable. -/
inductive EvalOut where
  | ok (t : ProgNode) (s : GlobalScope)
  | err (e : RichError) (s : GlobalScope)
  | panicked
deriving DecidableEq, Repr

/-- Outcome of compiling a sequence of elements with
`.map(|e| e.eval(..).unwrap())`: all terms plus the tracker state, or a
process abort (the unwrap turns the first element error into a panic). -/
inductive ElemsOut where
  | ok (ts : List ProgNode) (s : GlobalScope)
  | panicked
deriving DecidableEq, Repr

/-- The arm-pattern preparation of match lowering (src/compile.rs):
`pattern.get_identifier().cloned().map(Pattern::Identifier).unwrap_or(Pattern::Ignore)`. -/
def armInsert (pat : Pattern) : Pattern :=
  match pat.get_identifier with
  | some i => Pattern.Identifier i
  | none => Pattern.Ignore

/-- combine_seq (src/compile.rs): pair the two terms, then compose with
drop-identity, discarding the first result and threading the environment. -/
def combine_seq (a b : ProgNode) : ProgNode :=
  ProgNode.comp (ProgNode.pair a b) (ProgNode.drop_ ProgNode.iden)

/-- The required-type enforcement at the end of SingleExpressionInner::eval
(src/compile.rs): when a required type was supplied, unify the produced
term's output type against it (the unification itself lives in the external
simplicity library, abstracted as the `unify` oracle); a mismatch is the
`TypeValueMismatch` error at the expression's span. -/
def checkReqd (unify : Ty → ProgNode → Bool) (reqd : Option Ty) (sp : Span) : EvalOut → EvalOut
  | EvalOut.ok t s =>
    match reqd with
    | some rt =>
      if unify rt t then EvalOut.ok t s else EvalOut.err (Error.TypeValueMismatch rt, sp) s
    | none => EvalOut.ok t s
  | out => out

/-- The element-type hint extraction of the array lowering (src/compile.rs). -/
def arrayElTy : Option Ty → Option Ty
  | some (Ty.Array t _) => some t
  | _ => none

/-- The element-type hint extraction of the list lowering (src/compile.rs). -/
def listElTy : Option Ty → Option Ty
  | some (Ty.List t _) => some t
  | _ => none

/-- The bound selection of the list lowering (src/compile.rs): the required
list type's bound, or else the smallest supported power of two at least
`k + 1` for `k` elements. -/
def listBound (reqd : Option Ty) (k : Nat) : Nat :=
  match reqd with
  | some (Ty.List _ b) => b
  | _ => NonZeroPow2Usize.next (k + 1)

mutual

/-- Expression::eval (src/compile.rs): a block expression pushes a scope,
lowers its statements and tail, and pops the scope before returning the
result; a single expression delegates with the expression's span.  (On a
Rust panic the pop is never reached; the process aborts.) -/
def evalExpr (jets : String → Bool) (unify : Ty → ProgNode → Bool) :
    Expression → GlobalScope → Option Ty → EvalOut
  | Expression.mk (ExpressionInner.BlockExpression stmts tailE) _, scope, _ =>
    (match evalBlk jets unify stmts (scope.push_scope) (some tailE) with
     | EvalOut.ok t s1 =>
       (match s1.pop_scope with
        | some s2 => EvalOut.ok t s2
        | none => EvalOut.panicked)
     | EvalOut.err e s1 =>
       (match s1.pop_scope with
        | some s2 => EvalOut.err e s2
        | none => EvalOut.panicked)
     | EvalOut.panicked => EvalOut.panicked)
  | Expression.mk (ExpressionInner.SingleExpression se) sp, scope, reqd =>
    evalSingle jets unify se scope reqd sp
termination_by e _ _ => (sizeOf e, 0)

/-- SingleExpressionInner::eval (src/compile.rs): lower the single
expression, then enforce the required type on the produced term. -/
def evalSingle (jets : String → Bool) (unify : Ty → ProgNode → Bool) :
    SingleExpressionInner → GlobalScope → Option Ty → Span → EvalOut
  | se, scope, reqd, sp =>
    checkReqd unify reqd sp (evalSingleRaw jets unify se scope reqd sp)
termination_by se _ _ _ => (sizeOf se, 1)

/-- The variant dispatch of SingleExpressionInner::eval (src/compile.rs),
before the required-type enforcement. -/
def evalSingleRaw (jets : String → Bool) (unify : Ty → ProgNode → Bool) :
    SingleExpressionInner → GlobalScope → Option Ty → Span → EvalOut
  | SingleExpressionInner.Unit, scope, _, _ => EvalOut.ok ProgNode.unit scope
  | SingleExpressionInner.Left l, scope, _, _ =>
    (match evalExpr jets unify l scope none with
     | EvalOut.ok a s1 => EvalOut.ok (ProgNode.injl a) s1
     | EvalOut.err e s1 => EvalOut.err e s1
     | EvalOut.panicked => EvalOut.panicked)
  | SingleExpressionInner.None, scope, _, _ => EvalOut.ok ProgNode.bit_false scope
  | SingleExpressionInner.Right r, scope, _, _ =>
    (match evalExpr jets unify r scope none with
     | EvalOut.ok a s1 => EvalOut.ok (ProgNode.injr a) s1
     | EvalOut.err e s1 => EvalOut.err e s1
     | EvalOut.panicked => EvalOut.panicked)
  | SingleExpressionInner.Some r, scope, _, _ =>
    (match evalExpr jets unify r scope none with
     | EvalOut.ok a s1 => EvalOut.ok (ProgNode.injr a) s1
     | EvalOut.err e s1 => EvalOut.err e s1
     | EvalOut.panicked => EvalOut.panicked)
  | SingleExpressionInner.False, scope, _, _ => EvalOut.ok ProgNode.bit_false scope
  | SingleExpressionInner.True, scope, _, _ => EvalOut.ok ProgNode.bit_true scope
  | SingleExpressionInner.Product l r, scope, _, _ =>
    (match evalExpr jets unify l scope none with
     | EvalOut.ok a s1 =>
       (match evalExpr jets unify r s1 none with
        | EvalOut.ok b s2 => EvalOut.ok (ProgNode.pair a b) s2
        | EvalOut.err e s2 => EvalOut.err e s2
        | EvalOut.panicked => EvalOut.panicked)
     | EvalOut.err e s1 => EvalOut.err e s1
     | EvalOut.panicked => EvalOut.panicked)
  | SingleExpressionInner.UnsignedInteger decimal, scope, reqd, sp =>
    (match tyToUInt (reqd.getD (Ty.UInt UIntTy.U32)) with
     | some uty =>
       (match uty.parse_decimal decimal with
        | some v => EvalOut.ok (ProgNode.unit_comp (ProgNode.const_word v)) scope
        | none => EvalOut.err (Error.ParseIntegerError decimal, sp) scope)
     | none =>
       EvalOut.err (Error.TypeValueMismatch (reqd.getD (Ty.UInt UIntTy.U32)), sp) scope)
  | SingleExpressionInner.BitString v, scope, _, _ =>
    EvalOut.ok (ProgNode.unit_comp (ProgNode.const_word v)) scope
  | SingleExpressionInner.ByteString v, scope, _, _ =>
    EvalOut.ok (ProgNode.unit_comp (ProgNode.const_word v)) scope
  | SingleExpressionInner.Witness name, scope, _, _ =>
    (match scope.insert_witness name with
     | some s1 => EvalOut.ok (ProgNode.witness name) s1
     | none => EvalOut.panicked)
  | SingleExpressionInner.Variable id, scope, _, sp =>
    (match scope.get id with
     | some t => EvalOut.ok t scope
     | none => EvalOut.err (Error.UndefinedVariable id, sp) scope)
  | SingleExpressionInner.FuncCall call, scope, reqd, _ =>
    evalFuncCall jets unify call scope reqd
  | SingleExpressionInner.Expression e, scope, reqd, _ =>
    evalExpr jets unify e scope reqd
  | SingleExpressionInner.Match scrut (MatchArm.mk lpat lexp) (MatchArm.mk rpat rexp),
      scope, reqd, sp =>
    (match scope.insert (armInsert lpat) with
     | none => EvalOut.panicked
     | some lscope =>
       (match evalExpr jets unify lexp lscope reqd with
        | EvalOut.panicked => EvalOut.panicked
        | EvalOut.err e _ => EvalOut.err e scope
        | EvalOut.ok lt _ =>
          (match scope.insert (armInsert rpat) with
           | none => EvalOut.panicked
           | some rscope =>
             (match evalExpr jets unify rexp rscope reqd with
              | EvalOut.panicked => EvalOut.panicked
              | EvalOut.err e _ => EvalOut.err e scope
              | EvalOut.ok rt _ =>
                (match evalExpr jets unify scrut scope none with
                 | EvalOut.panicked => EvalOut.panicked
                 | EvalOut.err e s1 => EvalOut.err e s1
                 | EvalOut.ok st s1 =>
                   EvalOut.ok
                     (ProgNode.comp (ProgNode.pair_iden st) (ProgNode.case lt rt)) s1)))))
  | SingleExpressionInner.Array elements, scope, reqd, _ =>
    (match evalElems jets unify elements scope (arrayElTy reqd) with
     | ElemsOut.ok nodes s1 => EvalOut.ok (foldPairwise ProgNode.pair nodes) s1
     | ElemsOut.panicked => EvalOut.panicked)
  | SingleExpressionInner.List elements, scope, reqd, _ =>
    (match evalElems jets unify elements scope (listElTy reqd) with
     | ElemsOut.ok nodes s1 =>
       EvalOut.ok
         (Partition.fold
           (Partition.from_slice nodes (listBound reqd elements.length / 2))
           processBlock ProgNode.pair) s1
     | ElemsOut.panicked => EvalOut.panicked)
termination_by se _ _ _ => (sizeOf se, 0)

/-- FuncCall::eval (src/compile.rs). -/
def evalFuncCall (jets : String → Bool) (unify : Ty → ProgNode → Bool) :
    FuncCall → GlobalScope → Option Ty → EvalOut
  | FuncCall.mk (FuncType.Jet name) args sp, scope, _ =>
    (match (if args.isEmpty
            then evalSingle jets unify SingleExpressionInner.Unit scope none sp
            else evalSingle jets unify (SingleExpressionInner.Array args) scope none sp) with
     | EvalOut.ok args_expr s1 =>
       if jets name
       then EvalOut.ok (ProgNode.comp args_expr (ProgNode.jet name)) s1
       else EvalOut.err (Error.JetDoesNotExist name, sp) s1
     | EvalOut.err e s1 => EvalOut.err e s1
     | EvalOut.panicked => EvalOut.panicked)
  | FuncCall.mk (FuncType.BuiltIn _) _ _, _, _ => EvalOut.panicked
  | FuncCall.mk FuncType.UnwrapLeft args sp, scope, _ =>
    (match args with
     | [] => EvalOut.panicked
     | a :: _ =>
       (match evalExpr jets unify a scope none with
        | EvalOut.ok b s1 =>
          EvalOut.ok
            (ProgNode.comp (ProgNode.pair_unit b)
              (ProgNode.assertl (ProgNode.take ProgNode.iden) (Cmr.fail 0))) s1
        | EvalOut.err e s1 => EvalOut.err e s1
        | EvalOut.panicked => EvalOut.panicked))
  | FuncCall.mk FuncType.UnwrapRight args sp, scope, _ =>
    (match args with
     | [] => EvalOut.panicked
     | a :: _ =>
       (match evalExpr jets unify a scope none with
        | EvalOut.ok c s1 =>
          EvalOut.ok
            (ProgNode.comp (ProgNode.pair_unit c)
              (ProgNode.assertr (Cmr.fail 0) (ProgNode.take ProgNode.iden))) s1
        | EvalOut.err e s1 => EvalOut.err e s1
        | EvalOut.panicked => EvalOut.panicked))
  | FuncCall.mk FuncType.Unwrap args sp, scope, _ =>
    (match args with
     | [] => EvalOut.panicked
     | a :: _ =>
       (match evalExpr jets unify a scope none with
        | EvalOut.ok c s1 =>
          EvalOut.ok
            (ProgNode.comp (ProgNode.pair_unit c)
              (ProgNode.assertr (Cmr.fail 0) (ProgNode.take ProgNode.iden))) s1
        | EvalOut.err e s1 => EvalOut.err e s1
        | EvalOut.panicked => EvalOut.panicked))
termination_by fc _ _ => (sizeOf fc, 0)

/-- eval_blk (src/compile.rs): lower a statement sequence and the optional
tail expression (the index-based recursion of the source is the head/rest
recursion here, as licensed by the spec's design notes). -/
def evalBlk (jets : String → Bool) (unify : Ty → ProgNode → Bool) :
    List Statement → GlobalScope → Option Expression → EvalOut
  | [], scope, some e => evalExpr jets unify e scope none
  | [], scope, none => EvalOut.ok ProgNode.unit scope
  | Statement.Assignment pat ty ex sp :: rest, scope, lastE =>
    (match evalExpr jets unify ex scope ty with
     | EvalOut.ok exprT s1 =>
       (match s1.insert pat with
        | none => EvalOut.panicked
        | some s2 =>
          (match evalBlk jets unify rest s2 lastE with
           | EvalOut.ok right s3 =>
             EvalOut.ok (ProgNode.comp (ProgNode.pair_iden exprT) right) s3
           | EvalOut.err e s3 => EvalOut.err e s3
           | EvalOut.panicked => EvalOut.panicked))
     | EvalOut.err e s1 => EvalOut.err e s1
     | EvalOut.panicked => EvalOut.panicked)
  | Statement.FuncCall fc :: rest, scope, lastE =>
    (match evalFuncCall jets unify fc scope none with
     | EvalOut.ok left s1 =>
       (match evalBlk jets unify rest s1 lastE with
        | EvalOut.ok right s2 => EvalOut.ok (combine_seq left right) s2
        | EvalOut.err e s2 => EvalOut.err e s2
        | EvalOut.panicked => EvalOut.panicked)
     | EvalOut.err e s1 => EvalOut.err e s1
     | EvalOut.panicked => EvalOut.panicked)
termination_by stmts _ lastE => (sizeOf stmts + sizeOf lastE, 0)

/-- The element compilation of array and list lowering (src/compile.rs):
`elements.iter().map(|e| e.eval(scope, el_type).unwrap()).collect()` — each
element is compiled in order against the element-type hint and its result is
force-unwrapped, so the first element error aborts the process. -/
def evalElems (jets : String → Bool) (unify : Ty → ProgNode → Bool) :
    List Expression → GlobalScope → Option Ty → ElemsOut
  | [], scope, _ => ElemsOut.ok [] scope
  | e :: rest, scope, elTy =>
    (match evalExpr jets unify e scope elTy with
     | EvalOut.ok t s1 =>
       (match evalElems jets unify rest s1 elTy with
        | ElemsOut.ok ts s2 => ElemsOut.ok (t :: ts) s2
        | ElemsOut.panicked => ElemsOut.panicked)
     | EvalOut.err _ _ => ElemsOut.panicked
     | EvalOut.panicked => ElemsOut.panicked)
termination_by es _ _ => (sizeOf es, 0)

end

/-- Program::eval (src/compile.rs): a program is its statement sequence with
no tail expression. -/
def programEval (jets : String → Bool) (unify : Ty → ProgNode → Bool)
    (stmts : List Statement) (scope : GlobalScope) : EvalOut :=
  evalBlk jets unify stmts scope none

/-- Scope-shape relation for one statement-list lowering: `eval_blk` only
grows the current (topmost) scope level, so the number of levels and all
lower levels are unchanged, on both stacks. -/
def envExt (s s1 : GlobalScope) : Prop :=
  (s1.vars.length = s.vars.length ∧ s1.vars.tail = s.vars.tail) ∧
  (s1.wits.length = s.wits.length ∧ s1.wits.tail = s.wits.tail)

/-- Scope-shape relation for one expression lowering: the variable stack is
fully restored, and the witness stack can change only in its topmost level
(witness registration). -/
def envSame (s s1 : GlobalScope) : Prop :=
  s1.vars = s.vars ∧ (s1.wits.length = s.wits.length ∧ s1.wits.tail = s.wits.tail)

/-- Lift a scope relation over an evaluation outcome (panics abort the
process, so no state relation is asserted there). -/
def outInv (P : GlobalScope → GlobalScope → Prop) (s : GlobalScope) : EvalOut → Prop
  | EvalOut.ok _ s1 => P s s1
  | EvalOut.err _ s1 => P s s1
  | EvalOut.panicked => True

/-- Lift a scope relation over an element-sequence outcome. -/
def outInvL (P : GlobalScope → GlobalScope → Prop) (s : GlobalScope) : ElemsOut → Prop
  | ElemsOut.ok _ s1 => P s s1
  | ElemsOut.panicked => True

theorem envSame_refl (s : GlobalScope) : envSame s s := ⟨rfl, rfl, rfl⟩

theorem envExt_refl (s : GlobalScope) : envExt s s := ⟨⟨rfl, rfl⟩, ⟨rfl, rfl⟩⟩

theorem envSame_trans {a b c : GlobalScope} (h1 : envSame a b) (h2 : envSame b c) :
    envSame a c := by
  obtain ⟨v1, w1, t1⟩ := h1
  obtain ⟨v2, w2, t2⟩ := h2
  exact ⟨v2.trans v1, w2.trans w1, t2.trans t1⟩

theorem envSame_ext {a b : GlobalScope} (h : envSame a b) : envExt a b := by
  obtain ⟨v, w, t⟩ := h
  exact ⟨⟨by rw [v], by rw [v]⟩, ⟨w, t⟩⟩

theorem envExt_trans {a b c : GlobalScope} (h1 : envExt a b) (h2 : envExt b c) :
    envExt a c := by
  obtain ⟨⟨v1, vt1⟩, w1, t1⟩ := h1
  obtain ⟨⟨v2, vt2⟩, w2, t2⟩ := h2
  exact ⟨⟨v2.trans v1, vt2.trans vt1⟩, ⟨w2.trans w1, t2.trans t1⟩⟩

theorem envSame_then_ext {a b c : GlobalScope} (h1 : envSame a b) (h2 : envExt b c) :
    envExt a c := envExt_trans (envSame_ext h1) h2

theorem ext_then_envSame {a b c : GlobalScope} (h1 : envExt a b) (h2 : envSame b c) :
    envExt a c := envExt_trans h1 (envSame_ext h2)

theorem insert_envExt {a b : GlobalScope} {p : Pattern} (h : a.insert p = some b) :
    envExt a b := by
  rcases hv : a.vars with _ | ⟨lvl, rest⟩ <;> rw [GlobalScope.insert, hv] at h
  · exact absurd h (by simp)
  · obtain rfl : GlobalScope.mk ((p :: lvl) :: rest) a.wits = b := by
      simpa using h
    exact ⟨⟨by simp [hv], by simp [hv]⟩, ⟨rfl, rfl⟩⟩

theorem insert_witness_envSame {a b : GlobalScope} {w : WitnessName}
    (h : a.insert_witness w = some b) : envSame a b := by
  rcases hw : a.wits with _ | ⟨lvl, rest⟩ <;> rw [GlobalScope.insert_witness, hw] at h
  · exact absurd h (by simp)
  · obtain rfl : GlobalScope.mk a.vars ((w :: lvl) :: rest) = b := by
      simpa using h
    exact ⟨rfl, by simp [hw], by simp [hw]⟩

theorem push_pop_envExt {a b c : GlobalScope} (h1 : envExt a.push_scope b)
    (h2 : b.pop_scope = some c) : c = a := by
  obtain ⟨⟨hvl, hvt⟩, hwl, hwt⟩ := h1
  rcases b with ⟨bvs, bws⟩
  rcases bvs with _ | ⟨bv, bvt⟩
  · exact absurd h2 (by simp [GlobalScope.pop_scope])
  rcases bws with _ | ⟨bw, bwt⟩
  · exact absurd h2 (by simp [GlobalScope.pop_scope])
  rw [GlobalScope.pop_scope] at h2
  obtain rfl : GlobalScope.mk bvt bwt = c := by simpa using h2
  simp only [GlobalScope.push_scope] at hvt hwt
  cases a
  simp_all

theorem checkReqd_outInv {P : GlobalScope → GlobalScope → Prop} {s : GlobalScope}
    {u : Ty → ProgNode → Bool} {r : Option Ty} {sp : Span} {out : EvalOut}
    (h : outInv P s out) : outInv P s (checkReqd u r sp out) := by
  rcases out with ⟨t, s1⟩ | ⟨e, s1⟩ | _
  · rcases r with _ | rt
    · simpa [checkReqd, outInv] using h
    · by_cases hu : u rt t <;> simp only [checkReqd, hu, if_true, if_false] <;>
        simpa [outInv] using h
  · simpa [checkReqd, outInv] using h
  · simp [checkReqd, outInv]

theorem outInv_mono {P Q : GlobalScope → GlobalScope → Prop} {s : GlobalScope}
    {out : EvalOut} (hPQ : ∀ x y, P x y → Q x y) (h : outInv P s out) :
    outInv Q s out := by
  rcases out with ⟨t, s1⟩ | ⟨e, s1⟩ | _
  · exact hPQ _ _ h
  · exact hPQ _ _ h
  · trivial

/-- Master scope-shape invariant of the compiler, by mutual functional
induction over all six  lowering functions: one expression lowering restores the
variable stack exactly and can change the witness stack only in its topmost
level; one statement-list lowering additionally grows the topmost variable
level (bindings inserted by its assignments).  Asserted on both the success
and the error outcome; a panic aborts the process. -/
theorem evalScopeInv (jets : String → Bool) (unify : Ty → ProgNode → Bool) :
    (∀ e s r, outInv envSame s (evalExpr jets unify e s r)) ∧
    (∀ se s r sp, outInv envSame s (evalSingle jets unify se s r sp)) ∧
    (∀ se s r sp, outInv envSame s (evalSingleRaw jets unify se s r sp)) ∧
    (∀ es s t, outInvL envSame s (evalElems jets unify es s t)) ∧
    (∀ fc s r, outInv envSame s (evalFuncCall jets unify fc s r)) ∧
    (∀ stmts s le, outInv envExt s (evalBlk jets unify stmts s le)) := by
  apply evalExpr.mutual_induct jets unify
    (fun e s r => outInv envSame s (evalExpr jets unify e s r))
    (fun se s r sp => outInv envSame s (evalSingle jets unify se s r sp))
    (fun se s r sp => outInv envSame s (evalSingleRaw jets unify se s r sp))
    (fun es s t => outInvL envSame s (evalElems jets unify es s t))
    (fun fc s r => outInv envSame s (evalFuncCall jets unify fc s r))
    (fun stmts s le => outInv envExt s (evalBlk jets unify stmts s le))
  all_goals intros
  all_goals simp_all only [evalExpr, evalSingle, evalSingleRaw, evalFuncCall, evalBlk,
    evalElems, outInv, outInvL]
  all_goals try exact envSame_refl _
  all_goals try trivial
  all_goals solve
    | (rename_i s2 hpop ih
       rw [push_pop_envExt ih hpop]
       exact envSame_refl _)
    | (rename_i ih
       exact checkReqd_outInv ih)
    | (rename_i ih2 ih1
       exact envSame_trans ih2 ih1)
    | (rename_i s2 hw
       exact insert_witness_envSame hw)
    | (rename_i hins a1 a hblk ih2 ih1
       exact envSame_then_ext ih2 (envExt_trans (insert_envExt hins) ih1))
    | (rename_i ih
       exact envSame_ext ih)
    | (rename_i ih2 ih1
       exact envSame_then_ext ih2 ih1)
    | (rename_i ih
       exact outInv_mono (fun x y h => envSame_ext h) ih)
    | (split_ifs at * <;> simp_all)


theorem lookupLevel_none {lvl : List Pattern} {i : Identifier}
    (h : ∀ p ∈ lvl, p.get_program i = none) : ∀ k, lookupLevel lvl i k = none := by
  induction lvl with
  | nil => intro k; rfl
  | cons p ps ih =>
    intro k
    rw [lookupLevel, h p (by simp)]
    exact ih (fun q hq => h q (by simp [hq])) (k + 1)

theorem lookupLevel_found {A : List Pattern} {p0 : Pattern} {B : List Pattern}
    {i : Identifier} {e : ProgNode} (hA : ∀ p ∈ A, p.get_program i = none)
    (hp : p0.get_program i = some e) :
    ∀ k, lookupLevel (A ++ p0 :: B) i k = some (k + A.length, e) := by
  induction A with
  | nil => intro k; simp [lookupLevel, hp]
  | cons p ps ih =>
    intro k
    rw [List.cons_append, lookupLevel, hA p (by simp)]
    rw [ih (fun q hq => hA q (by simp [hq])) (k + 1)]
    have harith : k + 1 + ps.length = k + (ps.length + 1) := by omega
    simp [List.length_cons, harith]

theorem getGo_skip {N : List (List Pattern)} {lvl : List Pattern}
    {O : List (List Pattern)} {i : Identifier}
    (hN : ∀ L ∈ N, ∀ p ∈ L, p.get_program i = none) :
    ∀ pos, getGo (N ++ lvl :: O) i pos
      = getGo (lvl :: O) i (pos + (N.map List.length).sum) := by
  induction N with
  | nil => intro pos; simp
  | cons L Ns ih =>
    intro pos
    rw [List.cons_append, getGo, lookupLevel_none (hN L (by simp))]
    rw [ih (fun M hM => hN M (by simp [hM]))]
    have harith : pos + L.length + (List.map List.length Ns).sum
        = pos + (List.map List.length (L :: Ns)).sum := by
      simp [Nat.add_assoc]
    rw [harith]

theorem lookupLevel_none_forall {lvl : List Pattern} {i : Identifier} :
    ∀ k, lookupLevel lvl i k = none → ∀ p ∈ lvl, p.get_program i = none := by
  induction lvl with
  | nil => intro k _ p hp; cases hp
  | cons q ps ih =>
    intro k h p hp
    rw [lookupLevel] at h
    rcases hq : q.get_program i with _ | e
    · rw [hq] at h
      rcases List.mem_cons.mp hp with rfl | hmem
      · exact hq
      · exact ih (k + 1) h p hmem
    · rw [hq] at h; cases h

theorem getGo_none_forall {levels : List (List Pattern)} {i : Identifier} :
    ∀ pos, getGo levels i pos = none → ∀ L ∈ levels, ∀ p ∈ L, p.get_program i = none := by
  induction levels with
  | nil => intro pos _ L hL; cases hL
  | cons lvl rest ih =>
    intro pos h L hL
    rw [getGo] at h
    rcases hl : lookupLevel lvl i 0 with _ | pe
    · rw [hl] at h
      rcases List.mem_cons.mp hL with rfl | hmem
      · exact lookupLevel_none_forall 0 hl
      · exact ih _ h L hmem
    · rw [hl] at h; cases h

theorem getGo_none {levels : List (List Pattern)} {i : Identifier}
    (h : ∀ L ∈ levels, ∀ p ∈ L, p.get_program i = none) :
    ∀ pos, getGo levels i pos = none := by
  induction levels with
  | nil => intro pos; rfl
  | cons lvl rest ih =>
    intro pos
    rw [getGo, lookupLevel_none (h lvl (by simp))]
    exact ih (fun M hM => h M (by simp [hM])) _

/-- C1: for a scope stack in which the identifier is bound — `N` the levels
pushed more recently than the binding level (none of them binding `i`), the
binding level holding the most recent binding of `i` at pattern `p0` with
`A` the bindings inserted after it in that level — the access term of
GlobalScope::get is exactly `d` drop wrappers around one take of the
within-pattern leaf path, where `d` counts the bindings after the accessed
binding in its own level plus all bindings of all more recently pushed
levels. -/
theorem c1_get_access_path (N : List (List Pattern)) (A : List Pattern)
    (p0 : Pattern) (B : List Pattern) (O : List (List Pattern))
    (wits : List (List WitnessName)) (i : Identifier) (e : ProgNode)
    (hN : ∀ L ∈ N, ∀ p ∈ L, p.get_program i = none)
    (hA : ∀ p ∈ A, p.get_program i = none)
    (hp : p0.get_program i = some e) :
    GlobalScope.get ⟨N ++ (A ++ p0 :: B) :: O, wits⟩ i
      = some (ProgNode.dropN (A.length + (N.map List.length).sum)
          (ProgNode.take e)) := by
  rw [GlobalScope.get]
  show getGo (N ++ (A ++ p0 :: B) :: O) i 0 = _
  rw [getGo_skip hN, getGo, lookupLevel_found hA hp]
  simp [Nat.add_comm]

/-- Witness for C1: scopes `[x] [b a]` (head-first: one level `[Ignore]`
pushed above the binding level), accessing `a` takes two drops (one binding
after `a` in its level, one binding in the more recent level). -/
theorem c1_get_access_path_witness :
    (∀ L ∈ [[Pattern.Ignore]], ∀ p ∈ L, p.get_program "a" = none) ∧
    (∀ p ∈ [Pattern.Identifier "b"], p.get_program "a" = none) ∧
    (Pattern.Identifier "a").get_program "a" = some ProgNode.iden ∧
    GlobalScope.get
        ⟨[[Pattern.Ignore], [Pattern.Identifier "b", Pattern.Identifier "a"]], [[], []]⟩ "a"
      = some (ProgNode.dropN 2 (ProgNode.take ProgNode.iden)) := by
  refine ⟨by decide, by decide, by decide, ?_⟩
  exact c1_get_access_path [[Pattern.Ignore]] [Pattern.Identifier "b"]
    (Pattern.Identifier "a") [] [] [[], []] "a" ProgNode.iden
    (by decide) (by decide) (by decide)

/-- C2 counterexample: on a fresh tracker, which has exactly one (the
outermost) scope level on each stack, pop_scope does not fail: it succeeds
and leaves zero levels, refuting that pop_scope fails fatally whenever only
the outermost level remains and that both stacks always keep at least one
level. -/
theorem c2_pop_scope_counterexample :
    GlobalScope.new.vars.length = 1 ∧
    GlobalScope.pop_scope GlobalScope.new = some ⟨[], []⟩ ∧
    (GlobalScope.mk [] []).vars.length = 0 := by
  refine ⟨rfl, rfl, rfl⟩

/-- C2 amended: pop_scope removes the topmost level from both stacks, and it
fails fatally (the modelled panic, `none`) exactly when a stack is empty
(zero levels) — not when one level remains; keeping at least one level is
the caller's obligation, not enforced by pop_scope. -/
theorem c2_pop_scope_amended :
    (∀ (v : List Pattern) (vs : List (List Pattern)) (w : List WitnessName)
        (ws : List (List WitnessName)),
      GlobalScope.pop_scope ⟨v :: vs, w :: ws⟩ = some ⟨vs, ws⟩) ∧
    (∀ ws, GlobalScope.pop_scope ⟨[], ws⟩ = none) ∧
    (∀ vs, GlobalScope.pop_scope ⟨vs, []⟩ = none) := by
  refine ⟨fun v vs w ws => rfl, fun ws => rfl, fun vs => ?_⟩
  cases vs <;> rfl

/-- Count of the outermost right-steps (drop wrappers) of an access term. -/
def outerDrops : ProgNode → Nat
  | ProgNode.drop_ t => outerDrops t + 1
  | _ => 0

/-- The two-statement block `let a = true; let b = false; a`. -/
def blkAB : Expression :=
  Expression.mk
    (ExpressionInner.BlockExpression
      [ Statement.Assignment (Pattern.Identifier "a") none
          (Expression.mk (ExpressionInner.SingleExpression SingleExpressionInner.True) 1) 2,
        Statement.Assignment (Pattern.Identifier "b") none
          (Expression.mk (ExpressionInner.SingleExpression SingleExpressionInner.False) 3) 4 ]
      (Expression.mk (ExpressionInner.SingleExpression (SingleExpressionInner.Variable "a")) 5))
    0

/-- C6 counterexample: compiling `let a = true; let b = false; a` resolves
the final access to `a` through `drop (take iden)` — an access path with
exactly one right-step, not two.  The first conjunct is the whole compiled
block, whose tail factor is the access term; the second evaluates
GlobalScope::get at the scope state in force at the access; the third counts
the right-steps. -/
theorem c6_two_drops_counterexample :
    evalExpr (fun _ => false) (fun _ _ => true) blkAB GlobalScope.new none
      = EvalOut.ok
          (ProgNode.comp (ProgNode.pair ProgNode.bit_true ProgNode.iden)
            (ProgNode.comp (ProgNode.pair ProgNode.bit_false ProgNode.iden)
              (ProgNode.drop_ (ProgNode.take ProgNode.iden)))) GlobalScope.new ∧
    GlobalScope.get
        ⟨[[Pattern.Identifier "b", Pattern.Identifier "a"], []], [[], []]⟩ "a"
      = some (ProgNode.drop_ (ProgNode.take ProgNode.iden)) ∧
    outerDrops (ProgNode.drop_ (ProgNode.take ProgNode.iden)) ≠ 2 := by
  refine ⟨?_, by decide, by decide⟩
  simp [blkAB, evalExpr, evalBlk, evalSingle, evalSingleRaw, checkReqd,
    GlobalScope.push_scope, GlobalScope.pop_scope, GlobalScope.insert, GlobalScope.new,
    GlobalScope.get, getGo, lookupLevel, Pattern.get_program, ProgNode.pair_iden,
    ProgNode.dropN]

/-- C6 amended: compiling the two-statement block `let a = true;
let b = false; a` resolves the final variable access to `a` through an
access path containing exactly one right-step (drop) around the take,
reflecting that exactly one binding (`b`) was introduced after `a`. -/
theorem c6_one_drop_amended :
    evalExpr (fun _ => false) (fun _ _ => true) blkAB GlobalScope.new none
      = EvalOut.ok
          (ProgNode.comp (ProgNode.pair ProgNode.bit_true ProgNode.iden)
            (ProgNode.comp (ProgNode.pair ProgNode.bit_false ProgNode.iden)
              (ProgNode.drop_ (ProgNode.take ProgNode.iden)))) GlobalScope.new ∧
    outerDrops (ProgNode.drop_ (ProgNode.take ProgNode.iden)) = 1 := by
  refine ⟨?_, by decide⟩
  simp [blkAB, evalExpr, evalBlk, evalSingle, evalSingleRaw, checkReqd,
    GlobalScope.push_scope, GlobalScope.pop_scope, GlobalScope.insert, GlobalScope.new,
    GlobalScope.get, getGo, lookupLevel, Pattern.get_program, ProgNode.pair_iden,
    ProgNode.dropN]

/-- C9: a required type supplied for a block expression is discarded without
being checked — Expression::eval on a block returns the same result with and
without a required type (the unification check only runs at the end of
single-expression lowering, which the block branch never reaches). -/
theorem c9_block_ignores_required_type (jets : String → Bool)
    (unify : Ty → ProgNode → Bool) (stmts : List Statement) (tailE : Expression)
    (sp : Span) (s : GlobalScope) (t : Ty) :
    evalExpr jets unify
        (Expression.mk (ExpressionInner.BlockExpression stmts tailE) sp) s (some t)
      = evalExpr jets unify
          (Expression.mk (ExpressionInner.BlockExpression stmts tailE) sp) s none := by
  simp only [evalExpr]

/-- C7: compiling a block expression pushes exactly one scope level, lowers
the body, and pops exactly one level again on both the success and the error
path: whenever Expression::eval on a block returns (rather than aborting the
process), the resulting tracker is exactly the tracker it started from, so
push/pop calls balance and the scope stack cannot grow across repeated
failed compilations. -/
theorem c7_block_scope_balance (jets : String → Bool) (unify : Ty → ProgNode → Bool)
    (stmts : List Statement) (tailE : Expression) (sp : Span) (s : GlobalScope)
    (reqd : Option Ty) :
    (∀ t s1, evalExpr jets unify
        (Expression.mk (ExpressionInner.BlockExpression stmts tailE) sp) s reqd
        = EvalOut.ok t s1 → s1 = s) ∧
    (∀ e s1, evalExpr jets unify
        (Expression.mk (ExpressionInner.BlockExpression stmts tailE) sp) s reqd
        = EvalOut.err e s1 → s1 = s) := by
  have hblk := (evalScopeInv jets unify).2.2.2.2.2 stmts s.push_scope (some tailE)
  constructor
  · intro t s1 h
    rw [evalExpr] at h
    rcases hb : evalBlk jets unify stmts s.push_scope (some tailE) with ⟨a, a1⟩ | ⟨e2, a1⟩ | _ <;>
      rw [hb] at hblk <;> simp only [hb] at h
    · rcases hp : a1.pop_scope with _ | s2 <;> simp [hp] at h
      obtain ⟨rfl, rfl⟩ := h
      exact push_pop_envExt hblk hp
    · rcases hp : a1.pop_scope with _ | s2 <;> simp [hp] at h
    · simp at h
  · intro e s1 h
    rw [evalExpr] at h
    rcases hb : evalBlk jets unify stmts s.push_scope (some tailE) with ⟨a, a1⟩ | ⟨e2, a1⟩ | _ <;>
      rw [hb] at hblk <;> simp only [hb] at h
    · rcases hp : a1.pop_scope with _ | s2 <;> simp [hp] at h
    · rcases hp : a1.pop_scope with _ | s2 <;> simp [hp] at h
      obtain ⟨rfl, rfl⟩ := h
      exact push_pop_envExt hblk hp
    · simp at h

/-- Witness for C7: the block `{ true }` compiles to the true terminal and
returns the tracker it started from. -/
theorem c7_block_scope_balance_witness :
    evalExpr (fun _ => false) (fun _ _ => true)
        (Expression.mk (ExpressionInner.BlockExpression []
          (Expression.mk (ExpressionInner.SingleExpression SingleExpressionInner.True) 1)) 0)
        GlobalScope.new none
      = EvalOut.ok ProgNode.bit_true GlobalScope.new ∧
    GlobalScope.new = GlobalScope.new := by
  have heval : evalExpr (fun _ => false) (fun _ _ => true)
      (Expression.mk (ExpressionInner.BlockExpression []
        (Expression.mk (ExpressionInner.SingleExpression SingleExpressionInner.True) 1)) 0)
      GlobalScope.new none
      = EvalOut.ok ProgNode.bit_true GlobalScope.new := by
    simp [evalExpr, evalBlk, evalSingle, evalSingleRaw, checkReqd,
      GlobalScope.push_scope, GlobalScope.pop_scope, GlobalScope.new]
  exact ⟨heval,
    (c7_block_scope_balance (fun _ => false) (fun _ _ => true) []
      (Expression.mk (ExpressionInner.SingleExpression SingleExpressionInner.True) 1)
      0 GlobalScope.new none).1 ProgNode.bit_true GlobalScope.new heval⟩

/-- C8 counterexample: compiling the witness expression `w` twice in the same
scope appends the name twice — the witness list holds two entries, not one,
so the registration is not idempotent. -/
theorem c8_insert_witness_counterexample :
    evalSingle (fun _ => false) (fun _ _ => true)
        (SingleExpressionInner.Witness "w") GlobalScope.new none 0
      = EvalOut.ok (ProgNode.witness "w") ⟨[[]], [["w"]]⟩ ∧
    evalSingle (fun _ => false) (fun _ _ => true)
        (SingleExpressionInner.Witness "w") ⟨[[]], [["w"]]⟩ none 0
      = EvalOut.ok (ProgNode.witness "w") ⟨[[]], [["w", "w"]]⟩ ∧
    (["w", "w"] : List WitnessName) ≠ ["w"] := by
  refine ⟨?_, ?_, by decide⟩ <;>
    simp [evalSingle, evalSingleRaw, checkReqd, GlobalScope.insert_witness, GlobalScope.new]

/-- C8 amended: compiling Witness(name) unconditionally appends the name to
the current scope level's witness list (so compiling the same name twice
leaves two entries) and produces the opaque witness terminal keyed by that
name. -/
theorem c8_insert_witness_amended (jets : String → Bool) (unify : Ty → ProgNode → Bool)
    (w : WitnessName) (s : GlobalScope) (sp : Span) (H : List WitnessName)
    (T : List (List WitnessName)) (h : s.wits = H :: T) :
    evalSingle jets unify (SingleExpressionInner.Witness w) s none sp
      = EvalOut.ok (ProgNode.witness w) ⟨s.vars, (w :: H) :: T⟩ := by
  simp [evalSingle, evalSingleRaw, checkReqd, GlobalScope.insert_witness, h]

/-- Witness for C8 amended: registering "w" on a fresh tracker appends it to
the (sole) topmost witness level. -/
theorem c8_insert_witness_amended_witness :
    GlobalScope.new.wits = [] :: [] ∧
    evalSingle (fun _ => false) (fun _ _ => true)
        (SingleExpressionInner.Witness "w") GlobalScope.new none 0
      = EvalOut.ok (ProgNode.witness "w") ⟨GlobalScope.new.vars, ["w"] :: []⟩ :=
  ⟨rfl, c8_insert_witness_amended (fun _ => false) (fun _ _ => true) "w"
    GlobalScope.new 0 [] [] rfl⟩

/-- Truth test for the error outcome of a compilation. -/
def EvalOut.isErr : EvalOut → Bool
  | EvalOut.err _ _ => true
  | _ => false

/-- C3 counterexample: compiling the array literal `[x]` with `x` undefined
does not return the element's compilation error as a Result — the element
error is force-unwrapped, aborting the process. -/
theorem c3_array_error_counterexample :
    evalSingle (fun _ => false) (fun _ _ => true)
        (SingleExpressionInner.Array
          [Expression.mk (ExpressionInner.SingleExpression
            (SingleExpressionInner.Variable "x")) 7])
        GlobalScope.new none 0
      = EvalOut.panicked ∧
    EvalOut.isErr
        (evalSingle (fun _ => false) (fun _ _ => true)
          (SingleExpressionInner.Array
            [Expression.mk (ExpressionInner.SingleExpression
              (SingleExpressionInner.Variable "x")) 7])
          GlobalScope.new none 0)
      = false := by
  have h : evalSingle (fun _ => false) (fun _ _ => true)
      (SingleExpressionInner.Array
        [Expression.mk (ExpressionInner.SingleExpression
          (SingleExpressionInner.Variable "x")) 7])
      GlobalScope.new none 0
      = EvalOut.panicked := by
    simp [evalSingle, evalSingleRaw, checkReqd, evalElems, evalExpr, arrayElTy,
      GlobalScope.get, getGo, lookupLevel, GlobalScope.new]
  exact ⟨h, by rw [h]; rfl⟩

/-- C3 amended: for array and list literals, if compiling the first element
fails, the span-tagged element error is not returned to the caller as a
Result — the `.unwrap()` on the element result escalates it to a process
abort (panic). -/
theorem c3_element_error_panics (jets : String → Bool) (unify : Ty → ProgNode → Bool)
    (e1 : Expression) (rest : List Expression) (s : GlobalScope) (reqd : Option Ty)
    (sp : Span) (er : RichError) (s1 : GlobalScope) :
    (evalExpr jets unify e1 s (arrayElTy reqd) = EvalOut.err er s1 →
      evalSingle jets unify (SingleExpressionInner.Array (e1 :: rest)) s reqd sp
        = EvalOut.panicked) ∧
    (evalExpr jets unify e1 s (listElTy reqd) = EvalOut.err er s1 →
      evalSingle jets unify (SingleExpressionInner.List (e1 :: rest)) s reqd sp
        = EvalOut.panicked) := by
  constructor
  · intro h
    rw [evalSingle, evalSingleRaw, evalElems, h]
    rfl
  · intro h
    rw [evalSingle, evalSingleRaw, evalElems, h]
    rfl

/-- Witness for C3 amended: `[x]` with `x` undefined — the element lowering
fails with UndefinedVariable, and the array literal compilation panics. -/
theorem c3_element_error_panics_witness :
    evalExpr (fun _ => false) (fun _ _ => true)
        (Expression.mk (ExpressionInner.SingleExpression
          (SingleExpressionInner.Variable "x")) 7)
        GlobalScope.new (arrayElTy none)
      = EvalOut.err (Error.UndefinedVariable "x", 7) GlobalScope.new ∧
    evalSingle (fun _ => false) (fun _ _ => true)
        (SingleExpressionInner.Array
          [Expression.mk (ExpressionInner.SingleExpression
            (SingleExpressionInner.Variable "x")) 7])
        GlobalScope.new none 0
      = EvalOut.panicked := by
  have h : evalExpr (fun _ => false) (fun _ _ => true)
      (Expression.mk (ExpressionInner.SingleExpression
        (SingleExpressionInner.Variable "x")) 7)
      GlobalScope.new (arrayElTy none)
      = EvalOut.err (Error.UndefinedVariable "x", 7) GlobalScope.new := by
    simp [evalExpr, evalSingle, evalSingleRaw, checkReqd, arrayElTy,
      GlobalScope.get, getGo, lookupLevel, GlobalScope.new]
  exact ⟨h,
    (c3_element_error_panics (fun _ => false) (fun _ _ => true)
      (Expression.mk (ExpressionInner.SingleExpression
        (SingleExpressionInner.Variable "x")) 7)
      [] GlobalScope.new none 0 (Error.UndefinedVariable "x", 7) GlobalScope.new).1 h⟩

/-- C4: match arms are compiled under independent clones of the tracker — a
binding introduced by the left arm's pattern is not resolvable in the right
arm's body (compiling `i` as the right body fails with UndefinedVariable even
though the left pattern binds `i`), and after a match compiles, the caller's
tracker holds no arm-introduced binding (its variable stack is unchanged). -/
theorem c4_match_scope_isolation (jets : String → Bool) (unify : Ty → ProgNode → Bool)
    (s : GlobalScope) (i : Identifier) (scrutE lBody : Expression) (rPat : Pattern)
    (rSpan mSpan : Span) (reqd : Option Ty) (H : List Pattern)
    (T : List (List Pattern)) (lt : ProgNode) (ls : GlobalScope)
    (hvars : s.vars = H :: T)
    (hfree : s.get i = none)
    (hrPat : ∀ j, rPat.get_identifier = some j → j ≠ i)
    (hleft : evalExpr jets unify lBody
      ⟨(Pattern.Identifier i :: H) :: T, s.wits⟩ reqd = EvalOut.ok lt ls) :
    evalSingle jets unify
        (SingleExpressionInner.Match scrutE
          (MatchArm.mk (Pattern.Identifier i) lBody)
          (MatchArm.mk rPat
            (Expression.mk (ExpressionInner.SingleExpression
              (SingleExpressionInner.Variable i)) rSpan)))
        s reqd mSpan
      = EvalOut.err (Error.UndefinedVariable i, rSpan) s ∧
    (∀ scrut2 arm1 arm2 t s1,
      evalSingle jets unify (SingleExpressionInner.Match scrut2 arm1 arm2) s reqd mSpan
        = EvalOut.ok t s1 → s1.vars = s.vars) := by
  have hpr : (armInsert rPat).get_program i = none := by
    rw [armInsert]
    rcases hri : rPat.get_identifier with _ | j
    · rfl
    · simp [Pattern.get_program, hrPat j hri]
  have hfree1 : getGo s.vars i 0 = none := hfree
  have hall := getGo_none_forall 0 hfree1
  have hfree2 : GlobalScope.get ⟨(armInsert rPat :: H) :: T, s.wits⟩ i = none := by
    apply getGo_none
    intro L hL q hq
    rcases List.mem_cons.mp hL with rfl | hmem
    · rcases List.mem_cons.mp hq with rfl | hq2
      · exact hpr
      · exact hall H (by rw [hvars]; exact List.mem_cons_self _ _) q hq2
    · exact hall L (by rw [hvars]; exact List.mem_cons_of_mem _ hmem) q hq
  have hins1 : s.insert (armInsert (Pattern.Identifier i))
      = some ⟨(Pattern.Identifier i :: H) :: T, s.wits⟩ := by
    simp [armInsert, Pattern.get_identifier, GlobalScope.insert, hvars]
  have hins2 : s.insert (armInsert rPat)
      = some ⟨(armInsert rPat :: H) :: T, s.wits⟩ := by
    simp [GlobalScope.insert, hvars]
  have hrbody : evalExpr jets unify
      (Expression.mk (ExpressionInner.SingleExpression
        (SingleExpressionInner.Variable i)) rSpan)
      ⟨(armInsert rPat :: H) :: T, s.wits⟩ reqd
      = EvalOut.err (Error.UndefinedVariable i, rSpan)
          ⟨(armInsert rPat :: H) :: T, s.wits⟩ := by
    simp [evalExpr, evalSingle, evalSingleRaw, checkReqd, hfree2]
  constructor
  · rw [evalSingle, evalSingleRaw]
    simp only [hins1, hleft, hins2, hrbody]
    rfl
  · intro scrut2 arm1 arm2 t s1 hok
    have hsi := (evalScopeInv jets unify).2.1
      (SingleExpressionInner.Match scrut2 arm1 arm2) s reqd mSpan
    rw [hok] at hsi
    exact hsi.1

/-- Witness for C4: scrutinee and left body `true`, left pattern binds `x`,
right pattern is the wildcard; the right body `x` fails with
UndefinedVariable, and a fully successful match (both bodies `true`) leaves
the caller's variable stack unchanged. -/
theorem c4_match_scope_isolation_witness :
    evalSingle (fun _ => false) (fun _ _ => true)
        (SingleExpressionInner.Match
          (Expression.mk (ExpressionInner.SingleExpression SingleExpressionInner.True) 1)
          (MatchArm.mk (Pattern.Identifier "x")
            (Expression.mk (ExpressionInner.SingleExpression SingleExpressionInner.True) 2))
          (MatchArm.mk Pattern.Ignore
            (Expression.mk (ExpressionInner.SingleExpression
              (SingleExpressionInner.Variable "x")) 3)))
        GlobalScope.new none 0
      = EvalOut.err (Error.UndefinedVariable "x", 3) GlobalScope.new := by
  refine ((c4_match_scope_isolation (fun _ => false) (fun _ _ => true) GlobalScope.new "x"
    (Expression.mk (ExpressionInner.SingleExpression SingleExpressionInner.True) 1)
    (Expression.mk (ExpressionInner.SingleExpression SingleExpressionInner.True) 2)
    Pattern.Ignore 3 0 none [] [] ProgNode.bit_true
    ⟨[[Pattern.Identifier "x"]], [[]]⟩ rfl (by decide) ?_ ?_).1)
  · intro j hj
    cases hj
  · simp [evalExpr, evalSingle, evalSingleRaw, checkReqd, GlobalScope.new]

/-- C10: a composite (neither identifier nor wildcard) match-arm pattern is
replaced by the Ignore placeholder in the arm's cloned scope, so an
identifier bound inside the composite pattern resolves as undefined within
that arm's body. -/
theorem c10_composite_pattern_ignore (jets : String → Bool)
    (unify : Ty → ProgNode → Bool) (s : GlobalScope) (i : Identifier)
    (scrutE : Expression) (p q : Pattern) (rArm : MatchArm) (reqd : Option Ty)
    (mSpan bodySpan : Span) (H : List Pattern) (T : List (List Pattern))
    (hvars : s.vars = H :: T)
    (hfree : s.get i = none)
    (hin : (Pattern.Product p q).get_program i ≠ none) :
    armInsert (Pattern.Product p q) = Pattern.Ignore ∧
    evalSingle jets unify
        (SingleExpressionInner.Match scrutE
          (MatchArm.mk (Pattern.Product p q)
            (Expression.mk (ExpressionInner.SingleExpression
              (SingleExpressionInner.Variable i)) bodySpan))
          rArm)
        s reqd mSpan
      = EvalOut.err (Error.UndefinedVariable i, bodySpan) s := by
  have hfree1 : getGo s.vars i 0 = none := hfree
  have hall := getGo_none_forall 0 hfree1
  have hfree2 : GlobalScope.get ⟨(Pattern.Ignore :: H) :: T, s.wits⟩ i = none := by
    apply getGo_none
    intro L hL r hr
    rcases List.mem_cons.mp hL with rfl | hmem
    · rcases List.mem_cons.mp hr with rfl | hr2
      · rfl
      · exact hall H (by rw [hvars]; exact List.mem_cons_self _ _) r hr2
    · exact hall L (by rw [hvars]; exact List.mem_cons_of_mem _ hmem) r hr
  have hins1 : s.insert (armInsert (Pattern.Product p q))
      = some ⟨(Pattern.Ignore :: H) :: T, s.wits⟩ := by
    simp [armInsert, Pattern.get_identifier, GlobalScope.insert, hvars]
  have hlbody : evalExpr jets unify
      (Expression.mk (ExpressionInner.SingleExpression
        (SingleExpressionInner.Variable i)) bodySpan)
      ⟨(Pattern.Ignore :: H) :: T, s.wits⟩ reqd
      = EvalOut.err (Error.UndefinedVariable i, bodySpan)
          ⟨(Pattern.Ignore :: H) :: T, s.wits⟩ := by
    simp [evalExpr, evalSingle, evalSingleRaw, checkReqd, hfree2]
  refine ⟨rfl, ?_⟩
  rcases rArm with ⟨rpat, rexp⟩
  rw [evalSingle, evalSingleRaw]
  simp only [hins1, hlbody]
  rfl

/-- Witness for C10: the composite pattern `(x, _)` binds `x`, yet `x` in
the left arm's body resolves as undefined. -/
theorem c10_composite_pattern_ignore_witness :
    armInsert (Pattern.Product (Pattern.Identifier "x") Pattern.Ignore)
      = Pattern.Ignore ∧
    evalSingle (fun _ => false) (fun _ _ => true)
        (SingleExpressionInner.Match
          (Expression.mk (ExpressionInner.SingleExpression SingleExpressionInner.True) 1)
          (MatchArm.mk (Pattern.Product (Pattern.Identifier "x") Pattern.Ignore)
            (Expression.mk (ExpressionInner.SingleExpression
              (SingleExpressionInner.Variable "x")) 2))
          (MatchArm.mk Pattern.Ignore
            (Expression.mk (ExpressionInner.SingleExpression SingleExpressionInner.True) 3)))
        GlobalScope.new none 0
      = EvalOut.err (Error.UndefinedVariable "x", 2) GlobalScope.new :=
  c10_composite_pattern_ignore (fun _ => false) (fun _ _ => true) GlobalScope.new "x"
    (Expression.mk (ExpressionInner.SingleExpression SingleExpressionInner.True) 1)
    (Pattern.Identifier "x") Pattern.Ignore
    (MatchArm.mk Pattern.Ignore
      (Expression.mk (ExpressionInner.SingleExpression SingleExpressionInner.True) 3))
    none 0 2 [] [] rfl (by decide) (by decide)

/-- Ceiling division bound: `ceil(k/b) ≤ i` iff `k ≤ b * i`. -/
theorem ceilDiv_le_iff {k b i : Nat} (hb : 0 < b) :
    (k + b - 1) / b ≤ i ↔ k ≤ b * i := by
  rw [Nat.div_le_iff_le_mul_add_pred hb]
  generalize b * i = m
  omega

/-- Element lowering produces exactly one term per element. -/
theorem evalElems_length (jets : String → Bool) (unify : Ty → ProgNode → Bool)
    (es : List Expression) :
    ∀ s t ns s1, evalElems jets unify es s t = ElemsOut.ok ns s1
      → ns.length = es.length := by
  induction es with
  | nil =>
    intro s t ns s1 h
    rw [evalElems] at h
    cases h
    rfl
  | cons e rest ih =>
    intro s t ns s1 h
    rw [evalElems] at h
    rcases he : evalExpr jets unify e s t with ⟨a, s2⟩ | ⟨er, s2⟩ | _ <;>
      simp only [he] at h
    · rcases hr : evalElems jets unify rest s2 t with ⟨ts, s3⟩ | _ <;>
        simp only [hr] at h
      · cases h
        simp [ih s2 t ts s1 hr]
      · cases h
    · cases h
    · cases h

/-- Block count of the modelled partition. -/
theorem from_slice_length (ns : List ProgNode) (size : Nat) :
    (Partition.from_slice ns size).length
      = max ((ns.length + size - 1) / size) 2 := by
  simp [Partition.from_slice]

/-- The i-th block of the modelled partition. -/
theorem from_slice_getD (ns : List ProgNode) (size i : Nat)
    (h : i < (Partition.from_slice ns size).length) :
    (Partition.from_slice ns size).getD i [] = (ns.drop (i * size)).take size := by
  rw [Partition.from_slice] at h ⊢
  rw [List.getD_eq_getElem _ _ h]
  simp

/-- C5: for a list literal with `k` elements whose capacity bound (from the
required list type, or else the smallest supported power of two at least
`k + 1`) is `2^j` with `j ≥ 1` and `k < 2^j`, the compiled term is the
pairwise balanced fold of `ceil(bound/b)` processed blocks for block size
`b = bound/2`; a block is empty (and so tagged absent, boolean false by
processBlock) exactly when its index is at least `ceil(k/b)`, and a
zero-element list produces all-absent blocks. -/
theorem c5_list_encoding (jets : String → Bool) (unify : Ty → ProgNode → Bool)
    (es : List Expression) (s : GlobalScope) (reqd : Option Ty) (sp : Span)
    (ns : List ProgNode) (s1 : GlobalScope) (j : Nat) (T : ProgNode)
    (s2 : GlobalScope)
    (hel : evalElems jets unify es s (listElTy reqd) = ElemsOut.ok ns s1)
    (hj : 1 ≤ j) (hbound : listBound reqd es.length = 2 ^ j)
    (hk : es.length < 2 ^ j)
    (hok : evalSingle jets unify (SingleExpressionInner.List es) s reqd sp
      = EvalOut.ok T s2) :
    T = foldPairwise ProgNode.pair
        ((Partition.from_slice ns (2 ^ j / 2)).map processBlock) ∧
    (Partition.from_slice ns (2 ^ j / 2)).length
      = (2 ^ j + 2 ^ j / 2 - 1) / (2 ^ j / 2) ∧
    (∀ i, i < (Partition.from_slice ns (2 ^ j / 2)).length →
      ((Partition.from_slice ns (2 ^ j / 2)).getD i [] = []
        ↔ (es.length + 2 ^ j / 2 - 1) / (2 ^ j / 2) ≤ i)) ∧
    (es = [] → (Partition.from_slice ns (2 ^ j / 2)).map processBlock
      = [ProgNode.bit_false, ProgNode.bit_false]) := by
  obtain ⟨m, rfl⟩ : ∃ m, j = m + 1 := ⟨j - 1, by omega⟩
  have hb : 0 < 2 ^ m := pow_pos (by norm_num) m
  have hdiv : 2 ^ (m + 1) / 2 = 2 ^ m := by
    rw [pow_succ]
    exact Nat.mul_div_cancel _ (by norm_num)
  have hns : ns.length = es.length := evalElems_length jets unify es s _ ns s1 hel
  have hT : T = foldPairwise ProgNode.pair
      ((Partition.from_slice ns (2 ^ (m + 1) / 2)).map processBlock) := by
    rw [evalSingle, evalSingleRaw] at hok
    simp only [hel, hbound] at hok
    rcases reqd with _ | rt
    · simp only [checkReqd] at hok
      cases hok
      rfl
    · simp only [checkReqd] at hok
      split at hok
      · cases hok
        rfl
      · cases hok
  refine ⟨hT, ?_, ?_, ?_⟩
  · rw [from_slice_length, hdiv, hns]
    have h1 : (es.length + 2 ^ m - 1) / 2 ^ m ≤ 2 := by
      refine (ceilDiv_le_iff hb).2 ?_
      rw [pow_succ] at hk
      omega
    have h2 : (2 ^ (m + 1) + 2 ^ m - 1) / 2 ^ m = 2 := by
      apply Nat.le_antisymm
      · exact (ceilDiv_le_iff hb).2 (Nat.le_of_eq (pow_succ 2 m))
      · by_contra hlt
        have hle : (2 ^ (m + 1) + 2 ^ m - 1) / 2 ^ m ≤ 1 := by omega
        have := (ceilDiv_le_iff hb).1 hle
        rw [pow_succ] at this
        omega
    rw [h2]
    exact Nat.max_eq_right h1
  · intro i hi
    rw [from_slice_getD _ _ _ hi]
    rw [hdiv]
    constructor
    · intro hemp
      rcases List.take_eq_nil_iff.mp hemp with hz | hdropnil
      · omega
      · have hlen : ns.length ≤ i * 2 ^ m := List.drop_eq_nil_iff.mp hdropnil
        refine (ceilDiv_le_iff hb).2 ?_
        rw [Nat.mul_comm]
        omega
    · intro hceil
      have hlen : ns.length ≤ i * 2 ^ m := by
        have := (ceilDiv_le_iff hb).1 hceil
        rw [Nat.mul_comm] at this
        omega
      rw [List.drop_eq_nil_iff.mpr hlen]
      exact List.take_nil
  · intro h0
    subst h0
    obtain rfl : ns = [] := List.length_eq_zero.mp (by simpa using hns)
    have hz : (2 ^ m - 1) / 2 ^ m = 0 := Nat.div_eq_of_lt (by omega)
    rw [hdiv]
    simp [Partition.from_slice, hz, processBlock, List.replicate]

/-- Witness for C5: the list `list![true, true]` with no required type gets
bound 4 = 2^2, block size 2, and compiles to (present [true,true], absent). -/
theorem c5_list_encoding_witness :
    evalElems (fun _ => false) (fun _ _ => true)
        [ Expression.mk (ExpressionInner.SingleExpression SingleExpressionInner.True) 1,
          Expression.mk (ExpressionInner.SingleExpression SingleExpressionInner.True) 2 ]
        GlobalScope.new (listElTy none)
      = ElemsOut.ok [ProgNode.bit_true, ProgNode.bit_true] GlobalScope.new ∧
    listBound none 2 = 2 ^ 2 ∧
    evalSingle (fun _ => false) (fun _ _ => true)
        (SingleExpressionInner.List
          [ Expression.mk (ExpressionInner.SingleExpression SingleExpressionInner.True) 1,
            Expression.mk (ExpressionInner.SingleExpression SingleExpressionInner.True) 2 ])
        GlobalScope.new none 0
      = EvalOut.ok
          (ProgNode.pair (ProgNode.injr (ProgNode.pair ProgNode.bit_true ProgNode.bit_true))
            ProgNode.bit_false) GlobalScope.new ∧
    (ProgNode.pair (ProgNode.injr (ProgNode.pair ProgNode.bit_true ProgNode.bit_true))
        ProgNode.bit_false
      = foldPairwise ProgNode.pair
          ((Partition.from_slice [ProgNode.bit_true, ProgNode.bit_true] (2 ^ 2 / 2)).map
            processBlock) ∧
    (Partition.from_slice [ProgNode.bit_true, ProgNode.bit_true] (2 ^ 2 / 2)).length
      = (2 ^ 2 + 2 ^ 2 / 2 - 1) / (2 ^ 2 / 2) ∧
    (∀ i, i < (Partition.from_slice [ProgNode.bit_true, ProgNode.bit_true] (2 ^ 2 / 2)).length →
      ((Partition.from_slice [ProgNode.bit_true, ProgNode.bit_true] (2 ^ 2 / 2)).getD i [] = []
        ↔ ((List.length [ Expression.mk (ExpressionInner.SingleExpression SingleExpressionInner.True) 1,
            Expression.mk (ExpressionInner.SingleExpression SingleExpressionInner.True) 2 ]) + 2 ^ 2 / 2 - 1) / (2 ^ 2 / 2) ≤ i)) ∧
    ([ Expression.mk (ExpressionInner.SingleExpression SingleExpressionInner.True) 1,
       Expression.mk (ExpressionInner.SingleExpression SingleExpressionInner.True) 2 ]
        = ([] : List Expression) →
      (Partition.from_slice [ProgNode.bit_true, ProgNode.bit_true] (2 ^ 2 / 2)).map processBlock
        = [ProgNode.bit_false, ProgNode.bit_false])) := by
  have hel : evalElems (fun _ => false) (fun _ _ => true)
      [ Expression.mk (ExpressionInner.SingleExpression SingleExpressionInner.True) 1,
        Expression.mk (ExpressionInner.SingleExpression SingleExpressionInner.True) 2 ]
      GlobalScope.new (listElTy none)
      = ElemsOut.ok [ProgNode.bit_true, ProgNode.bit_true] GlobalScope.new := by
    simp [evalElems, evalExpr, evalSingle, evalSingleRaw, checkReqd, listElTy]
  have hok : evalSingle (fun _ => false) (fun _ _ => true)
      (SingleExpressionInner.List
        [ Expression.mk (ExpressionInner.SingleExpression SingleExpressionInner.True) 1,
          Expression.mk (ExpressionInner.SingleExpression SingleExpressionInner.True) 2 ])
      GlobalScope.new none 0
      = EvalOut.ok
          (ProgNode.pair (ProgNode.injr (ProgNode.pair ProgNode.bit_true ProgNode.bit_true))
            ProgNode.bit_false) GlobalScope.new := by
    rw [evalSingle, evalSingleRaw]
    rw [hel]
    rfl
  refine ⟨hel, by decide, hok, ?_⟩
  exact c5_list_encoding (fun _ => false) (fun _ _ => true) _ GlobalScope.new none 0
    [ProgNode.bit_true, ProgNode.bit_true] GlobalScope.new 2 _ GlobalScope.new
    hel (by decide) (by decide) (by decide) hok
